import Mathlib

/-!
Shallow embedding of `stm32pio/core/util.py`: the time-bounded board-list
cache `get_platformio_boards`, the recursive sanitizer `cleanup_dict`, and
the flattener `configparser_to_dict`, together with theorems about them.
-/

namespace Stm32pio

/-- A record of the external board listing. The real JSON records carry many
fields; the code only ever reads the `id` field, and the `platform` field
stands for the record's category (hardware family). -/
structure Board where
  id : String
  platform : String
deriving DecidableEq

/-- Failure modes of the external enumeration step: `processError` models a
`subprocess.CalledProcessError` or missing command, `parseError` models a
`json.JSONDecodeError`. -/
inductive FetchError where
  | processError
  | parseError
deriving DecidableEq

/-- The module-level cache state: `_pio_boards_cache` and
`_pio_boards_fetched_at`. -/
structure CacheState where
  cache : List String
  fetchedAt : ℤ
deriving DecidableEq

/-- `_pio_boards_cache_lifetime = 5.0` -/
def pio_boards_cache_lifetime : ℤ := 5

/-- The command string built in `get_platformio_boards`:
the platformio command followed by the fixed filter argument. -/
def pio_boards_command (platformio_cmd : String) : String :=
  platformio_cmd ++ " boards --json-output stm32cube"

deriving instance DecidableEq for Except

/-- Outcome of one call to `get_platformio_boards`: the returned value (or
propagated error), the cache state after the call, and how many times the
external command was invoked during the call. -/
structure CallResult where
  ret : Except FetchError (List String)
  state : CacheState
  invocations : Nat
deriving DecidableEq

/-- One call to `get_platformio_boards`. `fetch` is the outcome the external
command would produce if invoked, `current_time` is the value of
`time.time()` at the start of the call, `s` is the module state. The code
refreshes when the cache is empty or the cache entry is older than the
lifetime; on a successful refresh it stores the `id` of every record and the
captured time, on a failed refresh the exception propagates before either
assignment runs. -/
def get_platformio_boards (fetch : Except FetchError (List Board))
    (current_time : ℤ) (s : CacheState) : CallResult :=
  if s.cache.length = 0 ∨ current_time - s.fetchedAt > pio_boards_cache_lifetime then
    match fetch with
    | .error e => ⟨.error e, s, 1⟩
    | .ok boards =>
      ⟨.ok (boards.map Board.id), ⟨boards.map Board.id, current_time⟩, 1⟩
  else
    ⟨.ok s.cache, s, 0⟩

/-- A Python value as far as `cleanup_dict` distinguishes them: `pyNone` is
`None`, `str` a string, `map` a dictionary (an ordered association list, as
Python dictionaries are ordered); `int`, `bool` and `list` stand for the
scalar values the spec's examples use, which the code keeps as-is. -/
inductive Value where
  | pyNone
  | str (s : String)
  | int (n : Int)
  | bool (b : Bool)
  | list (xs : List Value)
  | map (m : List (String × Value))

/-- The test `value is None or value == ''` that decides dropping a
non-mapping value (the code keeps a pair when
`value is not None and value != ''`; in Python a non-string compares
unequal to the empty string). -/
def is_empty_scalar : Value → Bool
  | .pyNone => true
  | .str s => s = ""
  | _ => false

/-- `cleanup_dict`: recursively copy non-empty values to a new dictionary.
A mapping value is kept unconditionally with its cleaned contents; any other
value is kept exactly when it is neither `None` nor the empty string. -/
def cleanup_dict : List (String × Value) → List (String × Value)
  | [] => []
  | (key, value) :: rest =>
    match value with
    | .map m => (key, .map (cleanup_dict m)) :: cleanup_dict rest
    | v => if is_empty_scalar v then cleanup_dict rest
           else (key, v) :: cleanup_dict rest

/-- A `configparser.ConfigParser` as the module uses it: an enumerable list
of section names and, per section, the section's key/value string pairs. -/
structure ConfigParser where
  sections : List String
  items : String → List (String × String)

/-- `configparser_to_dict`: one mapping per section, collected into an outer
mapping keyed by section name. -/
def configparser_to_dict (config : ConfigParser) :
    List (String × List (String × String)) :=
  config.sections.map (fun sec => (sec, config.items sec))

/-- Embed a flattened section (string-to-string pairs) as a dictionary
value, so that `cleanup_dict` can be applied to a flattened config. -/
def section_to_value (items : List (String × String)) : Value :=
  .map (items.map (fun kv => (kv.1, .str kv.2)))

/-- Embed a flattened config (the result of `configparser_to_dict`) as a
nested dictionary. -/
def config_to_values (d : List (String × List (String × String))) :
    List (String × Value) :=
  d.map (fun skv => (skv.1, section_to_value skv.2))

/-- The refresh condition of the code holds exactly when the cache is the
empty list or the entry is older than the lifetime. -/
lemma gpb_refresh_cond (s : CacheState) (t : ℤ)
    (h : s.cache = [] ∨ t - s.fetchedAt > pio_boards_cache_lifetime) :
    s.cache.length = 0 ∨ t - s.fetchedAt > pio_boards_cache_lifetime := by
  rcases h with h | h
  · exact Or.inl (by simp [h])
  · exact Or.inr h

/-- Successful refresh: the ids are extracted, cached with the captured time,
and returned; the external command runs once. -/
lemma gpb_refresh_ok (boards : List Board) (t : ℤ) (s : CacheState)
    (h : s.cache = [] ∨ t - s.fetchedAt > pio_boards_cache_lifetime) :
    get_platformio_boards (.ok boards) t s =
      ⟨.ok (boards.map Board.id), ⟨boards.map Board.id, t⟩, 1⟩ := by
  unfold get_platformio_boards
  rw [if_pos (gpb_refresh_cond s t h)]

/-- Failed refresh: the error propagates and the state is unchanged; the
external command ran once. -/
lemma gpb_refresh_err (e : FetchError) (t : ℤ) (s : CacheState)
    (h : s.cache = [] ∨ t - s.fetchedAt > pio_boards_cache_lifetime) :
    get_platformio_boards (.error e) t s = ⟨.error e, s, 1⟩ := by
  unfold get_platformio_boards
  rw [if_pos (gpb_refresh_cond s t h)]

/-- Cache hit: with a non-empty, fresh-enough entry the cached sequence is
returned unchanged and the external command is not invoked. -/
lemma gpb_hit (fetch : Except FetchError (List Board)) (t : ℤ) (s : CacheState)
    (hne : s.cache ≠ []) (hle : t - s.fetchedAt ≤ pio_boards_cache_lifetime) :
    get_platformio_boards fetch t s = ⟨.ok s.cache, s, 0⟩ := by
  unfold get_platformio_boards
  rw [if_neg]
  push_neg
  refine ⟨fun h0 => hne ?_, hle⟩
  exact List.length_eq_zero.mp h0

/-- Whenever the refresh condition holds, the call invokes the external
command exactly once, whatever its outcome. -/
lemma gpb_refresh_invokes (fetch : Except FetchError (List Board)) (t : ℤ)
    (s : CacheState)
    (h : s.cache = [] ∨ t - s.fetchedAt > pio_boards_cache_lifetime) :
    (get_platformio_boards fetch t s).invocations = 1 := by
  cases fetch with
  | error e => rw [gpb_refresh_err e t s h]
  | ok boards => rw [gpb_refresh_ok boards t s h]

end Stm32pio

namespace Stm32pio

/-- C1: when the cached sequence is empty or the entry is older than the
freshness window, `get_platformio_boards` invokes the external command
exactly once and, on success, stores the `id` of each returned record
together with the new timestamp as the new cache entry; in particular, once
more time than the window has elapsed since the last fetch, the next call
performs exactly one new external invocation. -/
theorem C1_refresh_on_empty_or_expired :
    (∀ (boards : List Board) (t : ℤ) (s : CacheState),
      (s.cache = [] ∨ t - s.fetchedAt > pio_boards_cache_lifetime) →
      get_platformio_boards (.ok boards) t s =
        ⟨.ok (boards.map Board.id), ⟨boards.map Board.id, t⟩, 1⟩) ∧
    (∀ (fetch : Except FetchError (List Board)) (t : ℤ) (s : CacheState),
      t - s.fetchedAt > pio_boards_cache_lifetime →
      (get_platformio_boards fetch t s).invocations = 1) :=
  ⟨fun boards t s h => gpb_refresh_ok boards t s h,
   fun fetch t s h => gpb_refresh_invokes fetch t s (Or.inr h)⟩

/-- Witness for C1: a call at time 6 on an entry fetched at time 0 refreshes,
stores the new id list with timestamp 6, and invokes the command once. -/
theorem C1_refresh_on_empty_or_expired_witness :
    get_platformio_boards (.ok [⟨"nucleo_f031k6", "ststm32"⟩]) 6 ⟨["old_board"], 0⟩ =
      ⟨.ok ["nucleo_f031k6"], ⟨["nucleo_f031k6"], 6⟩, 1⟩ ∧
    (get_platformio_boards (.error .processError) 6 ⟨["old_board"], 0⟩).invocations = 1 :=
  ⟨C1_refresh_on_empty_or_expired.1 [⟨"nucleo_f031k6", "ststm32"⟩] 6 ⟨["old_board"], 0⟩
      (Or.inr (by decide)),
   C1_refresh_on_empty_or_expired.2 (.error .processError) 6 ⟨["old_board"], 0⟩ (by decide)⟩

/-- C2: with a non-empty cached sequence fetched at most the freshness
window ago, the call returns the cached sequence unchanged without invoking
the external command; hence a refreshing call that caches a non-empty list
followed by a second call within the window issues exactly one external
invocation in total. -/
theorem C2_hit_within_window :
    (∀ (fetch : Except FetchError (List Board)) (t : ℤ) (s : CacheState),
      s.cache ≠ [] → t - s.fetchedAt ≤ pio_boards_cache_lifetime →
      get_platformio_boards fetch t s = ⟨.ok s.cache, s, 0⟩) ∧
    (∀ (boards : List Board) (fetch₂ : Except FetchError (List Board))
      (t₁ t₂ : ℤ) (s : CacheState),
      s.cache = [] → boards ≠ [] → t₂ - t₁ ≤ pio_boards_cache_lifetime →
      (get_platformio_boards (.ok boards) t₁ s).invocations +
        (get_platformio_boards fetch₂ t₂
          (get_platformio_boards (.ok boards) t₁ s).state).invocations = 1) := by
  constructor
  · exact fun fetch t s hne hle => gpb_hit fetch t s hne hle
  · intro boards fetch₂ t₁ t₂ s hempty hboards hwin
    rw [gpb_refresh_ok boards t₁ s (Or.inl hempty)]
    rw [gpb_hit fetch₂ t₂ ⟨boards.map Board.id, t₁⟩ (by simpa using hboards) hwin]
    rfl

/-- Witness for C2: a hit at time 4 on an entry fetched at time 0 returns the
cache without invoking; a refresh at time 0 followed by a call at time 4
performs one invocation in total. -/
theorem C2_hit_within_window_witness :
    get_platformio_boards (.error .processError) 4 ⟨["nucleo_f031k6"], 0⟩ =
      ⟨.ok ["nucleo_f031k6"], ⟨["nucleo_f031k6"], 0⟩, 0⟩ ∧
    (get_platformio_boards (.ok [⟨"nucleo_f031k6", "ststm32"⟩]) 0 ⟨[], 0⟩).invocations +
      (get_platformio_boards (.ok []) 4
        (get_platformio_boards (.ok [⟨"nucleo_f031k6", "ststm32"⟩]) 0 ⟨[], 0⟩).state).invocations
      = 1 :=
  ⟨C2_hit_within_window.1 (.error .processError) 4 ⟨["nucleo_f031k6"], 0⟩
      (by decide) (by decide),
   C2_hit_within_window.2 [⟨"nucleo_f031k6", "ststm32"⟩] (.ok []) 0 4 ⟨[], 0⟩
      rfl (by decide) (by decide)⟩

/-- C3: if the external command is invoked and fails (process error or parse
error), the error propagates to the caller and both the cached sequence and
the stored timestamp are exactly as before the call. -/
theorem C3_error_leaves_state_untouched :
    ∀ (e : FetchError) (t : ℤ) (s : CacheState),
      (s.cache = [] ∨ t - s.fetchedAt > pio_boards_cache_lifetime) →
      get_platformio_boards (.error e) t s = ⟨.error e, s, 1⟩ :=
  fun e t s h => gpb_refresh_err e t s h

/-- Witness for C3: both failure modes propagate at a concrete input and the
state survives unchanged. -/
theorem C3_error_leaves_state_untouched_witness :
    get_platformio_boards (.error .processError) 0 ⟨[], 0⟩ =
      ⟨.error .processError, ⟨[], 0⟩, 1⟩ ∧
    get_platformio_boards (.error .parseError) 7 ⟨["nucleo_f031k6"], 1⟩ =
      ⟨.error .parseError, ⟨["nucleo_f031k6"], 1⟩, 1⟩ :=
  ⟨C3_error_leaves_state_untouched .processError 0 ⟨[], 0⟩ (Or.inl rfl),
   C3_error_leaves_state_untouched .parseError 7 ⟨["nucleo_f031k6"], 1⟩ (Or.inr (by decide))⟩

/-- C4 counterexample: after a successful fetch at time 0 cached
`["nucleo_f031k6"]`, a failing refresh at time 10 returns the error to the
caller — the exception escapes — instead of returning the previously cached
sequence, refuting the claim as stated. -/
theorem C4_counterexample :
    (get_platformio_boards (.ok [⟨"nucleo_f031k6", "ststm32"⟩]) 0 ⟨[], 0⟩).state.cache =
      ["nucleo_f031k6"] ∧
    (get_platformio_boards (.error .processError) 10
        (get_platformio_boards (.ok [⟨"nucleo_f031k6", "ststm32"⟩]) 0 ⟨[], 0⟩).state).ret =
      .error .processError ∧
    (get_platformio_boards (.error .processError) 10
        (get_platformio_boards (.ok [⟨"nucleo_f031k6", "ststm32"⟩]) 0 ⟨[], 0⟩).state).ret ≠
      .ok ["nucleo_f031k6"] := by decide

/-- C4 amended: if a refresh attempt fails after a prior successful fetch,
the error propagates to the caller, but the previously cached sequence and
timestamp are preserved, and a subsequent call within the freshness window
of the original fetch still returns the previously cached sequence. -/
theorem C4_stale_data_preserved :
    ∀ (e : FetchError) (t t' : ℤ) (s : CacheState)
      (fetch' : Except FetchError (List Board)),
      s.cache ≠ [] → t - s.fetchedAt > pio_boards_cache_lifetime →
      t' - s.fetchedAt ≤ pio_boards_cache_lifetime →
      get_platformio_boards (.error e) t s = ⟨.error e, s, 1⟩ ∧
      get_platformio_boards fetch' t'
        (get_platformio_boards (.error e) t s).state = ⟨.ok s.cache, s, 0⟩ := by
  intro e t t' s fetch' hne hexp hwin
  have hfail := gpb_refresh_err e t s (Or.inr hexp)
  refine ⟨hfail, ?_⟩
  rw [hfail]
  exact gpb_hit fetch' t' s hne hwin

/-- Witness for the amended C4 at concrete inputs. -/
theorem C4_stale_data_preserved_witness :
    get_platformio_boards (.error .processError) 10 ⟨["nucleo_f031k6"], 0⟩ =
      ⟨.error .processError, ⟨["nucleo_f031k6"], 0⟩, 1⟩ ∧
    get_platformio_boards (.ok []) 3
      (get_platformio_boards (.error .processError) 10 ⟨["nucleo_f031k6"], 0⟩).state =
      ⟨.ok ["nucleo_f031k6"], ⟨["nucleo_f031k6"], 0⟩, 0⟩ :=
  C4_stale_data_preserved .processError 10 3 ⟨["nucleo_f031k6"], 0⟩ (.ok [])
    (by decide) (by decide) (by decide)

/-- C5 counterexample: the module does not discard records of other
categories — a record whose category (platform) is not the STM32 family
still has its id cached and returned, refuting the claim that all records of
other categories present in the output are discarded by the module. -/
theorem C5_counterexample :
    (get_platformio_boards
        (.ok [⟨"esp32dev", "espressif32"⟩, ⟨"nucleo_f031k6", "ststm32"⟩])
        0 ⟨[], 0⟩).state.cache = ["esp32dev", "nucleo_f031k6"] ∧
    ("espressif32" : String) ≠ "ststm32" := by decide

/-- C5 amended: family filtering is delegated to the external command — the
invocation string carries the fixed family filter argument — while the
module itself caches the id of every record present in the command's output
without inspecting categories. -/
theorem C5_filter_delegated_to_command :
    (∀ cmd : String,
      pio_boards_command cmd = cmd ++ " boards --json-output stm32cube") ∧
    (∀ (boards : List Board) (t : ℤ) (s : CacheState),
      (s.cache = [] ∨ t - s.fetchedAt > pio_boards_cache_lifetime) →
      (get_platformio_boards (.ok boards) t s).state.cache = boards.map Board.id) :=
  ⟨fun _ => rfl,
   fun boards t s h => by rw [gpb_refresh_ok boards t s h]⟩

/-- Witness for the amended C5 at concrete inputs. -/
theorem C5_filter_delegated_to_command_witness :
    pio_boards_command "platformio" = "platformio boards --json-output stm32cube" ∧
    (get_platformio_boards (.ok [⟨"esp32dev", "espressif32"⟩]) 0 ⟨[], 0⟩).state.cache =
      ["esp32dev"] :=
  ⟨C5_filter_delegated_to_command.1 "platformio",
   C5_filter_delegated_to_command.2 [⟨"esp32dev", "espressif32"⟩] 0 ⟨[], 0⟩ (Or.inl rfl)⟩

/-- C10: a successful refresh that stores an empty sequence leaves the cache
empty, and any call on an empty cache invokes the external command exactly
once regardless of how little time has elapsed since the last fetch — the
stored timestamp never suppresses a refresh while the cached sequence is
empty. -/
theorem C10_empty_cache_always_refetches :
    (∀ (t : ℤ) (s : CacheState),
      (s.cache = [] ∨ t - s.fetchedAt > pio_boards_cache_lifetime) →
      (get_platformio_boards (.ok []) t s).state.cache = []) ∧
    (∀ (fetch : Except FetchError (List Board)) (t : ℤ) (s : CacheState),
      s.cache = [] → (get_platformio_boards fetch t s).invocations = 1) :=
  ⟨fun t s h => by rw [gpb_refresh_ok [] t s h]; rfl,
   fun fetch t s h => gpb_refresh_invokes fetch t s (Or.inl h)⟩

/-- Witness for C10: a refresh storing the empty list at time 0 is followed
by a new invocation already at time 0. -/
theorem C10_empty_cache_always_refetches_witness :
    (get_platformio_boards (.ok []) 0 ⟨["stale"], -10⟩).state.cache = [] ∧
    (get_platformio_boards (.ok []) 0 ⟨[], 0⟩).invocations = 1 :=
  ⟨C10_empty_cache_always_refetches.1 0 ⟨["stale"], -10⟩ (Or.inr (by decide)),
   C10_empty_cache_always_refetches.2 (.ok []) 0 ⟨[], 0⟩ rfl⟩

end Stm32pio

example : (6 : ℤ) - 0 > Stm32pio.pio_boards_cache_lifetime := by decide

example : Stm32pio.get_platformio_boards (.ok [⟨"b1", "ststm32"⟩]) 6 ⟨["old"], 0⟩ =
    ⟨.ok ["b1"], ⟨["b1"], 6⟩, 1⟩ := by decide

example : Stm32pio.cleanup_dict
    [("a", .str ""), ("b", .pyNone), ("c", .str "x"),
     ("d", .map [("e", .str ""), ("f", .str "y")])] =
    [("c", .str "x"), ("d", .map [("f", .str "y")])] := by
  simp [Stm32pio.cleanup_dict, Stm32pio.is_empty_scalar]

namespace Stm32pio

lemma is_empty_scalar_eq_false (v : Value) (h1 : v ≠ .pyNone) (h2 : v ≠ .str "") :
    is_empty_scalar v = false := by
  cases v with
  | pyNone => exact absurd rfl h1
  | str s =>
    have hs : s ≠ "" := fun h => h2 (by rw [h])
    simp [is_empty_scalar, hs]
  | int n => rfl
  | bool b => rfl
  | list xs => rfl
  | map m => rfl

lemma is_empty_scalar_eq_true (v : Value) (h : v = .pyNone ∨ v = .str "") :
    is_empty_scalar v = true := by
  rcases h with h | h <;> rw [h] <;> simp [is_empty_scalar]

/-- Lookup misses when the key is not among the first components. -/
lemma lookup_eq_none_of_not_mem {β : Type} (k : String) :
    ∀ l : List (String × β), k ∉ l.map Prod.fst → l.lookup k = none := by
  intro l
  induction l with
  | nil => intro _; rfl
  | cons hd tl ih =>
    obtain ⟨k', v'⟩ := hd
    intro h
    have h1 : ¬k = k' := fun hkk => h (by simp [hkk])
    have h2 : k ∉ tl.map Prod.fst := fun hm => h (by simp [hm])
    have hkb : (k == k') = false := by simpa using h1
    simp [List.lookup, hkb, ih h2]

/-- A key absent from the input is absent from the cleaned dictionary. -/
lemma cleanup_lookup_none (k : String) :
    ∀ m : List (String × Value), m.lookup k = none →
      (cleanup_dict m).lookup k = none := by
  intro m
  induction m with
  | nil => intro _; simp [cleanup_dict]
  | cons hd tl ih =>
    obtain ⟨k', v'⟩ := hd
    intro hnone
    have hk : (k == k') = false := by
      by_contra hc
      have : k == k' := by simpa using hc
      simp [List.lookup, this] at hnone
    have htl : tl.lookup k = none := by
      simpa [List.lookup, hk] using hnone
    cases v' with
    | map sub => simp [cleanup_dict, List.lookup, hk, ih htl]
    | pyNone => simp [cleanup_dict, is_empty_scalar, ih htl]
    | str s =>
      by_cases hs : s = ""
      · simp [cleanup_dict, is_empty_scalar, hs, ih htl]
      · simp [cleanup_dict, is_empty_scalar, hs, List.lookup, hk, ih htl]
    | int n => simp [cleanup_dict, is_empty_scalar, List.lookup, hk, ih htl]
    | bool b => simp [cleanup_dict, is_empty_scalar, List.lookup, hk, ih htl]
    | list xs => simp [cleanup_dict, is_empty_scalar, List.lookup, hk, ih htl]

/-- Lookup in the cleaned dictionary, for a dictionary with distinct keys:
a mapping value is kept (cleaned), an empty scalar is dropped, any other
scalar is kept unchanged. -/
lemma cleanup_lookup (k : String) :
    ∀ m : List (String × Value), (m.map Prod.fst).Nodup →
      (cleanup_dict m).lookup k =
        (match m.lookup k with
         | none => none
         | some (.map sub) => some (.map (cleanup_dict sub))
         | some v => if is_empty_scalar v then none else some v) := by
  intro m
  induction m with
  | nil => intro _; simp [cleanup_dict]
  | cons hd tl ih =>
    obtain ⟨k', v'⟩ := hd
    intro hnodup
    have hnd_tl : (tl.map Prod.fst).Nodup := (List.nodup_cons.mp hnodup).2
    by_cases hk : k = k'
    · subst hk
      have htl_none : tl.lookup k = none :=
        lookup_eq_none_of_not_mem k tl (by simpa using (List.nodup_cons.mp hnodup).1)
      cases v' with
      | map sub => simp [cleanup_dict, List.lookup]
      | pyNone =>
        simp [cleanup_dict, is_empty_scalar, List.lookup,
          cleanup_lookup_none k tl htl_none]
      | str s =>
        by_cases hs : s = ""
        · simp [cleanup_dict, is_empty_scalar, hs, List.lookup,
            cleanup_lookup_none k tl htl_none]
        · simp [cleanup_dict, is_empty_scalar, hs, List.lookup]
      | int n => simp [cleanup_dict, is_empty_scalar, List.lookup]
      | bool b => simp [cleanup_dict, is_empty_scalar, List.lookup]
      | list xs => simp [cleanup_dict, is_empty_scalar, List.lookup]
    · have hkb : (k == k') = false := by simpa using hk
      cases v' with
      | map sub => simp [cleanup_dict, List.lookup, hkb, ih hnd_tl]
      | pyNone => simp [cleanup_dict, is_empty_scalar, List.lookup, hkb, ih hnd_tl]
      | str s =>
        by_cases hs : s = ""
        · simp [cleanup_dict, is_empty_scalar, hs, List.lookup, hkb, ih hnd_tl]
        · simp [cleanup_dict, is_empty_scalar, hs, List.lookup, hkb, ih hnd_tl]
      | int n => simp [cleanup_dict, is_empty_scalar, List.lookup, hkb, ih hnd_tl]
      | bool b => simp [cleanup_dict, is_empty_scalar, List.lookup, hkb, ih hnd_tl]
      | list xs => simp [cleanup_dict, is_empty_scalar, List.lookup, hkb, ih hnd_tl]

end Stm32pio

namespace Stm32pio

lemma cleanup_cons_map (key : String) (sub rest : List (String × Value)) :
    cleanup_dict ((key, Value.map sub) :: rest) =
      (key, Value.map (cleanup_dict sub)) :: cleanup_dict rest := by
  simp [cleanup_dict]

lemma cleanup_cons_scalar_drop (key : String) (v : Value)
    (rest : List (String × Value)) (hnm : ∀ m, v ≠ Value.map m)
    (he : is_empty_scalar v = true) :
    cleanup_dict ((key, v) :: rest) = cleanup_dict rest := by
  cases v with
  | map sub => exact absurd rfl (hnm sub)
  | pyNone => simp [cleanup_dict, is_empty_scalar]
  | str s => simp [cleanup_dict, he]
  | int n => simp [is_empty_scalar] at he
  | bool b => simp [is_empty_scalar] at he
  | list xs => simp [is_empty_scalar] at he

lemma cleanup_cons_scalar_keep (key : String) (v : Value)
    (rest : List (String × Value)) (hnm : ∀ m, v ≠ Value.map m)
    (he : is_empty_scalar v = false) :
    cleanup_dict ((key, v) :: rest) = (key, v) :: cleanup_dict rest := by
  cases v with
  | map sub => exact absurd rfl (hnm sub)
  | pyNone => simp [is_empty_scalar] at he
  | str s => simp [cleanup_dict, he]
  | int n => simp [cleanup_dict, is_empty_scalar]
  | bool b => simp [cleanup_dict, is_empty_scalar]
  | list xs => simp [cleanup_dict, is_empty_scalar]

end Stm32pio

namespace Stm32pio

/-- C6: `cleanup_dict` keeps every key bound to a mapping unconditionally,
with the mapping recursively cleaned; it keeps a key bound to a non-mapping
value exactly when that value is neither `None` nor the empty string (so
zero, false and the empty sequence survive); and the spec's two example
dictionaries clean to the stated results. -/
theorem C6_cleanup_dict_behavior :
    (∀ (m : List (String × Value)) (k : String) (sub : List (String × Value)),
      (m.map Prod.fst).Nodup → m.lookup k = some (Value.map sub) →
      (cleanup_dict m).lookup k = some (Value.map (cleanup_dict sub))) ∧
    (∀ (m : List (String × Value)) (k : String) (v : Value),
      (m.map Prod.fst).Nodup → m.lookup k = some v →
      (∀ sub, v ≠ Value.map sub) → v ≠ Value.pyNone → v ≠ Value.str "" →
      (cleanup_dict m).lookup k = some v) ∧
    (∀ (m : List (String × Value)) (k : String) (v : Value),
      (m.map Prod.fst).Nodup → m.lookup k = some v →
      (v = Value.pyNone ∨ v = Value.str "") →
      (cleanup_dict m).lookup k = none) ∧
    cleanup_dict
      [("a", .str ""), ("b", .pyNone), ("c", .str "x"),
       ("d", .map [("e", .str ""), ("f", .str "y")])] =
      [("c", .str "x"), ("d", .map [("f", .str "y")])] ∧
    cleanup_dict [("a", .int 0), ("b", .bool false), ("c", .list [])] =
      [("a", .int 0), ("b", .bool false), ("c", .list [])] := by
  refine ⟨?_, ?_, ?_, ?_, ?_⟩
  · intro m k sub hnd hl
    rw [cleanup_lookup k m hnd, hl]
  · intro m k v hnd hl hnm h1 h2
    rw [cleanup_lookup k m hnd, hl]
    cases v with
    | map sub => exact absurd rfl (hnm sub)
    | pyNone => exact absurd rfl h1
    | str s =>
      have hs : s ≠ "" := fun h => h2 (by rw [h])
      simp [is_empty_scalar, hs]
    | int n => simp [is_empty_scalar]
    | bool b => simp [is_empty_scalar]
    | list xs => simp [is_empty_scalar]
  · intro m k v hnd hl hv
    rw [cleanup_lookup k m hnd, hl]
    rcases hv with rfl | rfl
    · simp [is_empty_scalar]
    · simp [is_empty_scalar]
  · simp [cleanup_dict, is_empty_scalar]
  · simp [cleanup_dict, is_empty_scalar]

/-- Witness for C6 at concrete dictionaries: a nested mapping under key d is
kept and cleaned, the scalar 0 under key a is kept, and the `None` under key
b is dropped. -/
theorem C6_cleanup_dict_behavior_witness :
    (cleanup_dict [("d", .map [("e", .str "")]), ("a", .int 0), ("b", .pyNone)]).lookup "d" =
      some (Value.map (cleanup_dict [("e", Value.str "")])) ∧
    (cleanup_dict [("d", .map [("e", .str "")]), ("a", .int 0), ("b", .pyNone)]).lookup "a" =
      some (Value.int 0) ∧
    (cleanup_dict [("d", .map [("e", .str "")]), ("a", .int 0), ("b", .pyNone)]).lookup "b" =
      none :=
  ⟨C6_cleanup_dict_behavior.1
      [("d", .map [("e", .str "")]), ("a", .int 0), ("b", .pyNone)] "d"
      [("e", Value.str "")] (by simp) rfl,
   C6_cleanup_dict_behavior.2.1
      [("d", .map [("e", .str "")]), ("a", .int 0), ("b", .pyNone)] "a"
      (Value.int 0) (by simp) rfl
      (fun sub h => Value.noConfusion h) (fun h => Value.noConfusion h)
      (fun h => Value.noConfusion h),
   C6_cleanup_dict_behavior.2.2.1
      [("d", .map [("e", .str "")]), ("a", .int 0), ("b", .pyNone)] "b"
      Value.pyNone (by simp) rfl (Or.inl rfl)⟩

/-- C9: `cleanup_dict` is idempotent — one pass already removes every `None`
and empty-string scalar at every depth while keeping all mapping-valued
keys, so a second pass changes nothing. -/
theorem C9_cleanup_dict_idempotent :
    ∀ m : List (String × Value), cleanup_dict (cleanup_dict m) = cleanup_dict m := by
  intro m
  induction m using cleanup_dict.induct with
  | case1 => simp [cleanup_dict]
  | case2 key rest sub ih_sub ih_rest =>
    rw [cleanup_cons_map, cleanup_cons_map, ih_sub, ih_rest]
  | case3 key rest v hnm he ih =>
    rw [cleanup_cons_scalar_drop key v rest hnm he, ih]
  | case4 key rest v hnm he ih =>
    have he' : is_empty_scalar v = false := by
      cases h : is_empty_scalar v
      · rfl
      · exact absurd h he
    rw [cleanup_cons_scalar_keep key v rest hnm he',
      cleanup_cons_scalar_keep key v (cleanup_dict rest) hnm he', ih]

end Stm32pio

namespace Stm32pio

/-- Lookup in a list tabulating a function over distinct-or-not names always
recovers the tabulated value at any listed name. -/
lemma lookup_tabulate {β : Type} (f : String → β) :
    ∀ (l : List String) (sec : String), sec ∈ l →
      (l.map (fun s => (s, f s))).lookup sec = some (f sec) := by
  intro l
  induction l with
  | nil => intro sec h; cases h
  | cons hd tl ih =>
    intro sec h
    by_cases hk : sec = hd
    · subst hk
      simp [List.lookup]
    · have hmem : sec ∈ tl := by
        rcases List.mem_cons.mp h with h' | h'
        · exact absurd h' hk
        · exact h'
      have hkb : (sec == hd) = false := by simpa using hk
      simp [List.lookup, hkb, ih sec hmem]

/-- Cleaning the embedding of one flattened section whose values are all
non-empty strings changes nothing. -/
lemma cleanup_section (items : List (String × String))
    (h : ∀ kv ∈ items, kv.2 ≠ "") :
    cleanup_dict (items.map (fun kv => (kv.1, Value.str kv.2))) =
      items.map (fun kv => (kv.1, Value.str kv.2)) := by
  induction items with
  | nil => simp [cleanup_dict]
  | cons hd tl ih =>
    obtain ⟨k, v⟩ := hd
    have hv : v ≠ "" := h (k, v) (List.mem_cons_self _ _)
    have htl : ∀ kv ∈ tl, kv.2 ≠ "" := fun kv hkv => h kv (List.mem_cons_of_mem _ hkv)
    simp [cleanup_dict, is_empty_scalar, hv, ih htl]

/-- Cleaning the embedding of a flattened config whose values are all
non-empty strings changes nothing. -/
lemma cleanup_config (d : List (String × List (String × String)))
    (h : ∀ skv ∈ d, ∀ kv ∈ skv.2, kv.2 ≠ "") :
    cleanup_dict (config_to_values d) = config_to_values d := by
  induction d with
  | nil => simp [config_to_values, cleanup_dict]
  | cons hd tl ih =>
    obtain ⟨sec, items⟩ := hd
    have hitems : ∀ kv ∈ items, kv.2 ≠ "" := h (sec, items) (List.mem_cons_self _ _)
    have htl : ∀ skv ∈ tl, ∀ kv ∈ skv.2, kv.2 ≠ "" :=
      fun skv hskv => h skv (List.mem_cons_of_mem _ hskv)
    rw [show config_to_values ((sec, items) :: tl) =
          (sec, Value.map (items.map (fun kv => (kv.1, Value.str kv.2)))) ::
            config_to_values tl from rfl,
      cleanup_cons_map, cleanup_section items hitems, ih htl]

end Stm32pio

namespace Stm32pio

/-- C7: `configparser_to_dict` returns a two-level mapping keyed by section
name, each section mapped to its key/value pairs; the two-section example
flattens to the stated dictionary. -/
theorem C7_configparser_to_dict_shape :
    (∀ (c : ConfigParser) (sec : String), sec ∈ c.sections →
      (configparser_to_dict c).lookup sec = some (c.items sec)) ∧
    configparser_to_dict
      ⟨["s1", "s2"],
       fun s => if s = "s1" then [("k1", "v1")]
                else if s = "s2" then [("k2", "v2")] else []⟩ =
      [("s1", [("k1", "v1")]), ("s2", [("k2", "v2")])] := by
  constructor
  · intro c sec hsec
    exact lookup_tabulate c.items c.sections sec hsec
  · decide

/-- Witness for C7: both sections of the example are found with their pairs. -/
theorem C7_configparser_to_dict_shape_witness :
    (configparser_to_dict
      ⟨["s1", "s2"],
       fun s => if s = "s1" then [("k1", "v1")]
                else if s = "s2" then [("k2", "v2")] else []⟩).lookup "s1" =
      some [("k1", "v1")] ∧
    (configparser_to_dict
      ⟨["s1", "s2"],
       fun s => if s = "s1" then [("k1", "v1")]
                else if s = "s2" then [("k2", "v2")] else []⟩).lookup "s2" =
      some [("k2", "v2")] :=
  ⟨C7_configparser_to_dict_shape.1
      ⟨["s1", "s2"],
       fun s => if s = "s1" then [("k1", "v1")]
                else if s = "s2" then [("k2", "v2")] else []⟩ "s1" (by simp),
   C7_configparser_to_dict_shape.1
      ⟨["s1", "s2"],
       fun s => if s = "s1" then [("k1", "v1")]
                else if s = "s2" then [("k2", "v2")] else []⟩ "s2" (by simp)⟩

/-- C8: on an already-clean config — one in which no stored value is the
empty string — flattening and then sanitizing is a fixed point:
`cleanup_dict` on the flattened config returns it unchanged. -/
theorem C8_flatten_sanitize_fixed_point :
    ∀ c : ConfigParser,
      (∀ sec ∈ c.sections, ∀ kv ∈ c.items sec, kv.2 ≠ "") →
      cleanup_dict (config_to_values (configparser_to_dict c)) =
        config_to_values (configparser_to_dict c) := by
  intro c h
  apply cleanup_config
  intro skv hskv
  obtain ⟨sec, hsec, rfl⟩ := List.mem_map.mp hskv
  exact h sec hsec

/-- Witness for C8 at the two-section example config. -/
theorem C8_flatten_sanitize_fixed_point_witness :
    cleanup_dict (config_to_values (configparser_to_dict
      ⟨["s1", "s2"],
       fun s => if s = "s1" then [("k1", "v1")]
                else if s = "s2" then [("k2", "v2")] else []⟩)) =
      config_to_values (configparser_to_dict
      ⟨["s1", "s2"],
       fun s => if s = "s1" then [("k1", "v1")]
                else if s = "s2" then [("k2", "v2")] else []⟩) :=
  C8_flatten_sanitize_fixed_point
    ⟨["s1", "s2"],
     fun s => if s = "s1" then [("k1", "v1")]
              else if s = "s2" then [("k2", "v2")] else []⟩
    (by decide)

end Stm32pio
